import Mathlib

/-!
Shallow embedding of the MCP demo repository: the calculator server's
`divide` tool (`calculator_server.py`), the data-processor server's tools
and resources (`data_processor_server.py`), and the calculator client's
`extract_tool_result` response unwrapper (`calculator_client.py`).

Python values are modelled by the inductive type `Val`; numbers are split
into `int`/`float` exactly as in Python, with floats modelled as rational
numbers.  Response envelopes are objects carrying an optional `content`
list whose items expose an optional non-null `text` attribute and a
`json` attribute (absent, a callable returning a string, or a
pre-computed value).  The standard-library helpers the client calls,
`json.loads`, `int(str)` and `float(str)`, are modelled by executable
Lean parsers faithful to the fragment exercised here: the NaN/Infinity
extensions of Python's JSON reader, underscore digit separators and
non-ASCII case mapping are outside the modelled fragment.
-/

namespace Mcp

/-- The `json` attribute of a content item: absent (`hasattr` is false),
a callable whose call returns the string `out`, or a pre-computed
(non-callable) value. -/
inductive JsonAttr (α : Type) where
  | absent
  | jcallable (out : String)
  | jvalue (v : α)

/-- A content item of a response envelope: `text` is `some s` when the
item has a `.text` attribute whose value is not `None`, and `json`
describes its `.json` attribute. -/
structure ContentItem (α : Type) where
  text : Option String
  json : JsonAttr α

/-- Python-ish runtime values: `None`, booleans, ints, floats (as
rationals), strings, lists, dicts (association lists with unique keys),
and envelope-like objects carrying an optional `content` list
(`none` models a missing `content` attribute). -/
inductive Val where
  | vnone
  | vbool (b : Bool)
  | vint (i : Int)
  | vfloat (q : ℚ)
  | vstr (s : String)
  | vlist (xs : List Val)
  | vdict (fields : List (String × Val))
  | vobj (content : Option (List (ContentItem Val)))

/-- Skip JSON whitespace (space, tab, newline, carriage return). -/
def skipWs : List Char → List Char
  | c :: cs =>
    if c == ' ' || c == '\t' || c == '\n' || c == '\r' then skipWs cs
    else c :: cs
  | [] => []

/-- Numeric value of a decimal digit character. -/
def digitVal (c : Char) : Nat := c.toNat - 48

/-- Natural number denoted by a list of decimal digit characters. -/
def natOfDigits (ds : List Char) : Nat :=
  ds.foldl (fun acc c => acc * 10 + digitVal c) 0

/-- Optional exponent part of a JSON number: returns the signed exponent
and the remaining input when a well-formed `e`/`E` exponent is present,
otherwise consumes nothing. -/
def parseExpPart (cs : List Char) : Option Int × List Char :=
  match cs with
  | c :: rest =>
    if c == 'e' || c == 'E' then
      let signAndRest : Int × List Char :=
        match rest with
        | d :: r2 =>
          if d == '+' then (1, r2)
          else if d == '-' then (-1, r2)
          else (1, rest)
        | [] => (1, rest)
      let eds := signAndRest.2.takeWhile (fun c => c.isDigit)
      let rest2 := signAndRest.2.dropWhile (fun c => c.isDigit)
      if eds.isEmpty then (none, cs)
      else (some (signAndRest.1 * (natOfDigits eds : Int)), rest2)
    else (none, cs)
  | [] => (none, cs)

/-- Build the rational value of a JSON float from sign, integer digits,
fraction digits and signed decimal exponent. -/
def mkFloatVal (neg : Bool) (ids fds : List Char) (e : Int) : ℚ :=
  let base : ℚ := (natOfDigits ids : ℚ) + (natOfDigits fds : ℚ) / (10 : ℚ) ^ fds.length
  let scaled : ℚ :=
    if 0 ≤ e then base * (10 : ℚ) ^ e.toNat else base / (10 : ℚ) ^ (-e).toNat
  if neg then -scaled else scaled

/-- Parse a JSON number (strict JSON grammar: optional minus, no leading
zeros, optional fraction and exponent).  Integers without fraction or
exponent yield `Val.vint`, everything else `Val.vfloat`, as in Python's
`json.loads`. -/
def parseNumber (cs : List Char) : Option (Val × List Char) :=
  let negAndRest : Bool × List Char :=
    match cs with
    | c :: rest => if c == '-' then (true, rest) else (false, cs)
    | [] => (false, cs)
  let neg := negAndRest.1
  let cs1 := negAndRest.2
  let ids := cs1.takeWhile (fun c => c.isDigit)
  let cs2 := cs1.dropWhile (fun c => c.isDigit)
  if ids.isEmpty then none
  else if ids.length > 1 && ids.headD '0' == '0' then none
  else
    match cs2 with
    | '.' :: cs3 =>
      let fds := cs3.takeWhile (fun c => c.isDigit)
      let cs4 := cs3.dropWhile (fun c => c.isDigit)
      if fds.isEmpty then none
      else
        let ep := parseExpPart cs4
        some (Val.vfloat (mkFloatVal neg ids fds (ep.1.getD 0)), ep.2)
    | _ =>
      let ep := parseExpPart cs2
      match ep.1 with
      | some e => some (Val.vfloat (mkFloatVal neg ids [] e), ep.2)
      | none =>
        let n : Int := (natOfDigits ids : Int)
        some (Val.vint (if neg then -n else n), cs2)

/-- Value of a hexadecimal digit character, if any. -/
def hexVal (c : Char) : Option Nat :=
  if c.isDigit then some (c.toNat - 48)
  else if 'a' ≤ c && c ≤ 'f' then some (c.toNat - 87)
  else if 'A' ≤ c && c ≤ 'F' then some (c.toNat - 55)
  else none

/-- Parse the body of a JSON string after the opening quote, returning
the decoded characters and the input remaining after the closing quote.
Escape sequences follow the JSON grammar; surrogate-pair combining is
outside the modelled fragment. -/
def parseStringBody : Nat → List Char → Option (List Char × List Char)
  | 0, _ => none
  | Nat.succ fuel, cs =>
    match cs with
    | [] => none
    | c :: rest =>
      if c == '"' then some ([], rest)
      else if c == '\\' then
        match rest with
        | e :: rest2 =>
          if e == 'u' then
            match rest2 with
            | h1 :: h2 :: h3 :: h4 :: rest3 =>
              match hexVal h1, hexVal h2, hexVal h3, hexVal h4 with
              | some a, some b, some c, some d =>
                let code := ((a * 16 + b) * 16 + c) * 16 + d
                match parseStringBody fuel rest3 with
                | some (chars, rem) => some (Char.ofNat code :: chars, rem)
                | none => none
              | _, _, _, _ => none
            | _ => none
          else
            let decoded : Option Char :=
              if e == '"' then some '"'
              else if e == '\\' then some '\\'
              else if e == '/' then some '/'
              else if e == 'b' then some (Char.ofNat 8)
              else if e == 'f' then some (Char.ofNat 12)
              else if e == 'n' then some '\n'
              else if e == 'r' then some '\r'
              else if e == 't' then some '\t'
              else none
            match decoded with
            | some d =>
              match parseStringBody fuel rest2 with
              | some (chars, rem) => some (d :: chars, rem)
              | none => none
            | none => none
        | [] => none
      else if c.toNat < 32 then none
      else
        match parseStringBody fuel rest with
        | some (chars, rem) => some (c :: chars, rem)
        | none => none

/-- Set a key in an association list the way Python dict insertion does:
replace the value in place when the key exists, else append. -/
def setField : List (String × Val) → String → Val → List (String × Val)
  | [], k, v => [(k, v)]
  | (k0, v0) :: rest, k, v =>
    if k0 == k then (k0, v) :: rest else (k0, v0) :: setField rest k v

/-- First value bound to a key in an association list (Python
`d[k]`/`'k' in d`; keys are unique after `setField` insertion). -/
def dictGet : List (String × Val) → String → Option Val
  | [], _ => none
  | (k0, v0) :: rest, k => if k0 == k then some v0 else dictGet rest k

mutual

/-- Parse one JSON value (fuel-indexed recursive-descent reader
modelling Python's `json.loads` grammar on the modelled fragment). -/
def parseVal : Nat → List Char → Option (Val × List Char)
  | 0, _ => none
  | Nat.succ fuel, cs =>
    match cs with
    | [] => none
    | c :: rest =>
      if c == '\x7b' then
        match skipWs rest with
        | d :: rest1 =>
          if d == '\x7d' then some (Val.vdict [], rest1)
          else parseMembers fuel [] (d :: rest1)
        | [] => none
      else if c == '[' then
        match skipWs rest with
        | d :: rest1 =>
          if d == ']' then some (Val.vlist [], rest1)
          else parseItems fuel [] (d :: rest1)
        | [] => none
      else if c == '"' then
        match parseStringBody (rest.length + 1) rest with
        | some (chars, rest2) => some (Val.vstr (String.mk chars), rest2)
        | none => none
      else
        match cs with
        | 't' :: 'r' :: 'u' :: 'e' :: rest2 => some (Val.vbool true, rest2)
        | 'f' :: 'a' :: 'l' :: 's' :: 'e' :: rest2 => some (Val.vbool false, rest2)
        | 'n' :: 'u' :: 'l' :: 'l' :: rest2 => some (Val.vnone, rest2)
        | _ =>
          if c == '-' || c.isDigit then parseNumber cs else none

/-- Parse the members of a JSON object after the opening brace (first
member expected at the head of the input). -/
def parseMembers : Nat → List (String × Val) → List Char → Option (Val × List Char)
  | 0, _, _ => none
  | Nat.succ fuel, acc, cs =>
    match cs with
    | c :: rest =>
      if c == '"' then
        match parseStringBody (rest.length + 1) rest with
        | some (kchars, rest1) =>
          match skipWs rest1 with
          | ':' :: rest2 =>
            match parseVal fuel (skipWs rest2) with
            | some (v, rest3) =>
              let acc2 := setField acc (String.mk kchars) v
              match skipWs rest3 with
              | ',' :: rest4 => parseMembers fuel acc2 (skipWs rest4)
              | cl :: rest4 =>
                if cl == '\x7d' then some (Val.vdict acc2, rest4) else none
              | [] => none
            | none => none
          | _ => none
        | none => none
      else none
    | [] => none

/-- Parse the items of a JSON array after the opening bracket (first
item expected at the head of the input). -/
def parseItems : Nat → List Val → List Char → Option (Val × List Char)
  | 0, _, _ => none
  | Nat.succ fuel, acc, cs =>
    match parseVal fuel cs with
    | some (v, rest) =>
      match skipWs rest with
      | ',' :: rest2 => parseItems fuel (acc ++ [v]) (skipWs rest2)
      | cl :: rest2 => if cl == ']' then some (Val.vlist (acc ++ [v]), rest2) else none
      | [] => none
    | none => none

end

/-- Model of `json.loads`: parse one JSON document, requiring only
whitespace after it; `none` models a raised `JSONDecodeError`. -/
def jsonLoads (s : String) : Option Val :=
  match parseVal (2 * s.length + 8) (skipWs s.data) with
  | some (v, rest) => if (skipWs rest).isEmpty then some v else none
  | none => none

/-- Python-style whitespace trimming of both ends of a character list,
as `int(str)`/`float(str)` do before parsing. -/
def trimWsChars (cs : List Char) : List Char :=
  ((cs.dropWhile (fun c => c.isWhitespace)).reverse.dropWhile
    (fun c => c.isWhitespace)).reverse

/-- Model of Python `int(text)`: optional surrounding whitespace,
optional sign, at least one decimal digit consuming the whole input
(`none` models a raised `ValueError`; underscore separators are outside
the modelled fragment). -/
def pyIntOfString (s : String) : Option Int :=
  let cs := trimWsChars s.data
  let signAndRest : Int × List Char :=
    match cs with
    | c :: rest =>
      if c == '+' then (1, rest)
      else if c == '-' then (-1, rest)
      else (1, cs)
    | [] => (1, cs)
  let ds := signAndRest.2
  if ds.isEmpty then none
  else if ds.all (fun c => c.isDigit) then
    some (signAndRest.1 * (natOfDigits ds : Int))
  else none

/-- Model of Python `float(text)`: optional surrounding whitespace,
optional sign, decimal digits with an optional point (digits required on
at least one side) and an optional exponent, consuming the whole input
(`none` models a raised `ValueError`; `inf`/`nan` literals and
underscore separators are outside the modelled fragment). -/
def pyFloatOfString (s : String) : Option ℚ :=
  let cs := trimWsChars s.data
  let signAndRest : Bool × List Char :=
    match cs with
    | c :: rest =>
      if c == '+' then (false, rest)
      else if c == '-' then (true, rest)
      else (false, cs)
    | [] => (false, cs)
  let cs1 := signAndRest.2
  let ids := cs1.takeWhile (fun c => c.isDigit)
  let cs2 := cs1.dropWhile (fun c => c.isDigit)
  let fracAndRest : Option (List Char) × List Char :=
    match cs2 with
    | '.' :: cs3 => (some (cs3.takeWhile (fun c => c.isDigit)),
                     cs3.dropWhile (fun c => c.isDigit))
    | _ => (none, cs2)
  let fds := (fracAndRest.1).getD []
  if ids.isEmpty && fds.isEmpty then none
  else
    let ep := parseExpPart fracAndRest.2
    match ep.1, ep.2 with
    | _, _ :: _ => none
    | eo, [] =>
      if (fracAndRest.2 ≠ []) && eo.isNone then none
      else some (mkFloatVal signAndRest.1 ids fds (eo.getD 0))

-- ==================== calculator_client.py: extract_tool_result ====================

/-- Lines 169-175 of `calculator_client.py`: try to convert plain text
to a number — `float` when the text contains a decimal point, else
`int`, and the raw text when the conversion raises. -/
def coerceNum (s : String) : Val :=
  if s.data.contains '.' then
    match pyFloatOfString s with
    | some q => Val.vfloat q
    | none => Val.vstr s
  else
    match pyIntOfString s with
    | some i => Val.vint i
    | none => Val.vstr s

/-- Lines 158-175 of `calculator_client.py`: handling of a content item
with non-null `.text` — parse as JSON, prefer a `result` key of a
parsed mapping, else the parsed value, else numeric coercion of the raw
text. -/
def textExtract (s : String) : Val :=
  match jsonLoads s with
  | some parsed =>
    match parsed with
    | Val.vdict fs =>
      match dictGet fs "result" with
      | some r => r
      | none => Val.vdict fs
    | v => v
  | none => coerceNum s

/-- Lines 191-208 of `calculator_client.py`: handling of a parsed dict
from the `.json` accessor — prefer `result`, else `text`, else the dict
itself, then numerically coerce a string result. -/
def jsonDictSelect (fs : List (String × Val)) : Val :=
  let res :=
    match dictGet fs "result" with
    | some r => r
    | none =>
      match dictGet fs "text" with
      | some t => t
      | none => Val.vdict fs
  match res with
  | Val.vstr s => coerceNum s
  | r => r

/-- Lines 190-210 of `calculator_client.py`: a parsed value from the
`.json` accessor goes through dict selection when it is a dict and is
returned as-is otherwise. -/
def jsonHandle : Val → Val
  | Val.vdict fs => jsonDictSelect fs
  | v => v

/-- Lines 148-216 of `calculator_client.py`: the response unwrapper.
A response with a non-empty `content` list is unwrapped through its
first item (text branch first, then the `.json` accessor); everything
else is returned unchanged.  The function is total, mirroring the
code's never-raises contract. -/
def extract_tool_result (response : Val) : Val :=
  match response with
  | Val.vobj (some (item :: _)) =>
    match item.text with
    | some s => textExtract s
    | none =>
      match item.json with
      | JsonAttr.absent => response
      | JsonAttr.jcallable out =>
        match jsonLoads out with
        | some parsed => jsonHandle parsed
        | none => Val.vstr out
      | JsonAttr.jvalue v => jsonHandle v
  | _ => response

-- ==================== spec-side definitions (claim wording) ====================

/-- Modelled from the spec wording of step 3 of the unwrapper: the
candidate selected from a mapping — key `result` if present, else key
`text` if present, else the mapping itself. -/
def specCandidate (fs : List (String × Val)) : Val :=
  ((dictGet fs "result").getD ((dictGet fs "text").getD (Val.vdict fs)))

/-- Modelled from the spec wording of step 3 of the unwrapper: a string
candidate that coerces as a number (decimal point implies float, else
integer) is returned coerced, any other candidate unchanged. -/
def specCoerceCandidate : Val → Val
  | Val.vstr s =>
    if s.data.contains '.' then
      match pyFloatOfString s with
      | some q => Val.vfloat q
      | none => Val.vstr s
    else
      match pyIntOfString s with
      | some i => Val.vint i
      | none => Val.vstr s
  | v => v

/-- Modelled from the spec wording of step 3 of the unwrapper: the value
obtained from the `json` accessor is, when a mapping, reduced to its
coerced candidate, and returned unchanged otherwise. -/
def specJsonShape : Val → Val
  | Val.vdict fs => specCoerceCandidate (specCandidate fs)
  | v => v

-- ==================== server-side error model ====================

/-- Python exception classes raised by the two servers. -/
inductive PyError where
  | valueError (msg : String)
  | keyError (msg : String)
  | runtimeError (msg : String)
  deriving DecidableEq

instance {ε α : Type} [DecidableEq ε] [DecidableEq α] : DecidableEq (Except ε α) := fun a b =>
  match a, b with
  | Except.ok x, Except.ok y =>
    if h : x = y then isTrue (by rw [h]) else isFalse (fun hh => h (Except.ok.inj hh))
  | Except.error x, Except.error y =>
    if h : x = y then isTrue (by rw [h]) else isFalse (fun hh => h (Except.error.inj hh))
  | Except.ok _, Except.error _ => isFalse (fun hh => Except.noConfusion hh)
  | Except.error _, Except.ok _ => isFalse (fun hh => Except.noConfusion hh)

/-- Whether a computation outcome is a raised `KeyError` (the spec's
`NotFound` error kind). -/
def isKeyError {α : Type} : Except PyError α → Bool
  | Except.error (PyError.keyError _) => true
  | _ => false

-- ==================== calculator_server.py: divide ====================

/-- Lines 83-107 of `calculator_server.py`: `divide` raises
`ValueError("Cannot divide by zero")` when the divisor equals zero and
returns the quotient otherwise.  The numeric domain is modelled by ℚ;
the `TypeError`/`ZeroDivisionError` re-raise arm is unreachable for
numeric inputs because the zero test precedes the division. -/
def divide (a b : ℚ) : Except PyError ℚ :=
  if b = 0 then Except.error (PyError.valueError "Cannot divide by zero")
  else Except.ok (a / b)

-- ==================== data_processor_server.py ====================

/-- A record of the `users` collection of `DATA_STORE`. -/
structure User where
  id : Int
  name : String
  email : String
  deriving DecidableEq

/-- Lines 19-23 of `data_processor_server.py`: the fixed `users`
collection. -/
def users : List User :=
  [{ id := 1, name := "Alice", email := "alice@example.com" },
   { id := 2, name := "Bob", email := "bob@example.com" },
   { id := 3, name := "Charlie", email := "charlie@example.com" }]

/-- A record of the `products` collection of `DATA_STORE` (price
modelled as a rational). -/
structure Product where
  id : Int
  name : String
  price : ℚ
  deriving DecidableEq

/-- Lines 24-28 of `data_processor_server.py`: the fixed `products`
collection. -/
def products : List Product :=
  [{ id := 101, name := "Laptop", price := 99999 / 100 },
   { id := 102, name := "Mouse", price := 2999 / 100 },
   { id := 103, name := "Keyboard", price := 7999 / 100 }]

/-- Whether the first character list leads (starts) the second. -/
def listLeads : List Char → List Char → Bool
  | [], _ => true
  | _ :: _, [] => false
  | a :: as, b :: bs => a == b && listLeads as bs

/-- Whether the first character list occurs contiguously inside the
second (Python's `needle in haystack` on strings). -/
def listSub : List Char → List Char → Bool
  | needle, [] => needle.isEmpty
  | needle, c :: rest => listLeads needle (c :: rest) || listSub needle rest

/-- Model of Python `str.lower()` (ASCII case mapping, which covers the
stored data and queries considered here). -/
def lowerStr (s : String) : String := String.mk (s.data.map Char.toLower)

/-- The spec-side substring property: `n` occurs contiguously in `h`. -/
def SubstrOf (n h : List Char) : Prop := ∃ p s, h = p ++ n ++ s

/-- Lines 35-71 of `data_processor_server.py` over an explicit store:
`search_users` raises `ValueError` on an empty query (`not query`) and
otherwise filters the users whose lowered name or email contains the
lowered query. -/
def search_users_over (store : List User) (query : String) : Except PyError (List User) :=
  if query = "" then Except.error (PyError.valueError "Query must be a non-empty string")
  else
    Except.ok (store.filter (fun u =>
      listSub (lowerStr query).data (lowerStr u.name).data ||
      listSub (lowerStr query).data (lowerStr u.email).data))

/-- `search_users` on the fixed `users` collection. -/
def search_users (query : String) : Except PyError (List User) :=
  search_users_over users query

/-- The dict built on lines 106-110 of `data_processor_server.py`:
the user record augmented with the two fixed fields. -/
structure UserDetails where
  id : Int
  name : String
  email : String
  account_status : String
  created_at : String
  deriving DecidableEq

/-- Lines 106-110 of `data_processor_server.py`: the user record merged
with the two fixed fields `account_status` and `created_at`. -/
def augmentUser (u : User) : UserDetails :=
  { id := u.id, name := u.name, email := u.email,
    account_status := "active", created_at := "2024-01-15" }

/-- Lines 75-120 of `data_processor_server.py` over an explicit store:
`get_user_details` raises `ValueError` for a negative id before any
lookup, then raises `KeyError` when no user matches, and otherwise
returns the augmented record of the first match. -/
def get_user_details_over (store : List User) (user_id : Int) : Except PyError UserDetails :=
  if user_id < 0 then
    Except.error (PyError.valueError (s!"Invalid user_id: {user_id}"))
  else
    match store.find? (fun u => u.id == user_id) with
    | some u => Except.ok (augmentUser u)
    | none => Except.error (PyError.keyError (s!"User with id {user_id} not found"))

/-- `get_user_details` on the fixed `users` collection. -/
def get_user_details (user_id : Int) : Except PyError UserDetails :=
  get_user_details_over users user_id

/-- Round half to even to an integer, as Python's `round` does. -/
def roundHalfEven (q : ℚ) : Int :=
  let f := Int.floor q
  let r := q - (f : ℚ)
  if r < 1 / 2 then f
  else if 1 / 2 < r then f + 1
  else if f % 2 = 0 then f else f + 1

/-- Python `round(x, 2)` on the rational model of a float. -/
def pyRound2 (q : ℚ) : ℚ := (roundHalfEven (q * 100) : ℚ) / 100

/-- Lines 124-150 of `data_processor_server.py` over an explicit store:
raise `ValueError("No products in store")` on an empty collection, else
return the mean price rounded to two decimals. -/
def calculate_average_product_price_over (store : List Product) : Except PyError ℚ :=
  if store = [] then Except.error (PyError.valueError "No products in store")
  else Except.ok (pyRound2 ((store.map (fun p => p.price)).sum / (store.length : ℚ)))

/-- `calculate_average_product_price` on the fixed `products`
collection. -/
def calculate_average_product_price : Except PyError ℚ :=
  calculate_average_product_price_over products

/-- Outcome of the parameterized product resource: either a stored
product record, or the success-shaped miss payload carrying an `error`
message and the `available_ids` list. -/
inductive ProductLookup where
  | found (p : Product)
  | missing (error : String) (availableIds : List Int)
  deriving DecidableEq

/-- Lines 164-183 of `data_processor_server.py` over an explicit store:
`get_product_by_id` returns the first product with the given id, and on
a miss returns (never raises) the payload with the error message and
all stored ids. -/
def get_product_by_id_over (store : List Product) (product_id : Int) : ProductLookup :=
  match store.find? (fun p => p.id == product_id) with
  | some p => ProductLookup.found p
  | none =>
    ProductLookup.missing (s!"Product {product_id} not found")
      (store.map (fun p => p.id))

/-- `get_product_by_id` on the fixed `products` collection. -/
def get_product_by_id (product_id : Int) : ProductLookup :=
  get_product_by_id_over products product_id

-- ==================== helper lemmas ====================

/-- `listLeads` decides the prefix relation. -/
theorem listLeads_iff (n h : List Char) : listLeads n h = true ↔ ∃ t, h = n ++ t := by
  induction n generalizing h with
  | nil => simp [listLeads]
  | cons a as ih =>
    cases h with
    | nil => simp [listLeads]
    | cons b bs =>
      simp only [listLeads, Bool.and_eq_true, beq_iff_eq, ih, List.cons_append,
        List.cons.injEq]
      constructor
      · rintro ⟨hab, t, ht⟩
        exact ⟨t, hab.symm, ht⟩
      · rintro ⟨t, hba, ht⟩
        exact ⟨hba.symm, t, ht⟩

/-- `listSub` decides the contiguous-substring relation. -/
theorem listSub_iff (n h : List Char) : listSub n h = true ↔ SubstrOf n h := by
  induction h with
  | nil =>
    simp only [listSub, SubstrOf, List.isEmpty_iff]
    constructor
    · rintro rfl
      exact ⟨[], [], rfl⟩
    · rintro ⟨p, s, hps⟩
      rcases List.append_eq_nil.mp (List.append_eq_nil.mp hps.symm).1 with ⟨_, h2⟩
      subst h2
      rfl
  | cons c rest ih =>
    simp only [listSub, Bool.or_eq_true, listLeads_iff, ih, SubstrOf]
    constructor
    · rintro (⟨t, ht⟩ | ⟨p, s, hps⟩)
      · exact ⟨[], t, by simp [ht]⟩
      · exact ⟨c :: p, s, by simp [hps]⟩
    · rintro ⟨p, s, hps⟩
      cases p with
      | nil => exact Or.inl ⟨s, by simpa using hps⟩
      | cons x xs =>
        simp only [List.cons_append, List.cons.injEq] at hps
        exact Or.inr ⟨xs, s, hps.2⟩

/-- The unwrapper returns any non-envelope value unchanged (no
`content` attribute to probe). -/
theorem extract_eq_self_of_ne_vobj (v : Val) (h : ∀ c, v ≠ Val.vobj c) :
    extract_tool_result v = v := by
  cases v with
  | vnone => rfl
  | vbool b => rfl
  | vint i => rfl
  | vfloat q => rfl
  | vstr s => rfl
  | vlist xs => rfl
  | vdict fs => rfl
  | vobj c => exact absurd rfl (h c)

-- ==================== claim theorems ====================

/-- Claim C5: for all numeric inputs `a` and `b`, `divide a b` returns
`a / b` when `b` is nonzero, and raises `ValueError` (the
`DivisionByZero` error kind) exactly when `b` equals zero, for every
`a`. -/
theorem divide_spec (a b : ℚ) :
    (b ≠ 0 → divide a b = Except.ok (a / b)) ∧
    (b = 0 → divide a b = Except.error (PyError.valueError "Cannot divide by zero")) := by
  refine ⟨fun h => ?_, fun h => ?_⟩ <;> simp [divide, h]

/-- Witness for C5: `divide 6 3 = 6 / 3` and `divide 5 0` raises. -/
theorem divide_spec_witness :
    (3 : ℚ) ≠ 0 ∧ divide 6 3 = Except.ok ((6 : ℚ) / 3) ∧
    divide 5 0 = Except.error (PyError.valueError "Cannot divide by zero") :=
  ⟨by norm_num, (divide_spec 6 3).1 (by norm_num), (divide_spec 5 0).2 rfl⟩

/-- Claim C6: `search_users` raises `ValueError` (the `InvalidInput`
error kind) for the empty query, returns for every non-empty query
exactly the users whose name or email contains the query as a
case-insensitive substring, and on `"bob"` returns exactly the record
with email `bob@example.com`. -/
theorem search_users_spec :
    search_users "" = Except.error (PyError.valueError "Query must be a non-empty string") ∧
    (∀ q : String, q ≠ "" → ∃ l, search_users q = Except.ok l ∧
      ∀ u, u ∈ l ↔ u ∈ users ∧
        (SubstrOf (lowerStr q).data (lowerStr u.name).data ∨
         SubstrOf (lowerStr q).data (lowerStr u.email).data)) ∧
    search_users "bob" = Except.ok [{ id := 2, name := "Bob", email := "bob@example.com" }] := by
  refine ⟨rfl, fun q hq => ?_, by decide⟩
  refine ⟨users.filter (fun u =>
      listSub (lowerStr q).data (lowerStr u.name).data ||
      listSub (lowerStr q).data (lowerStr u.email).data),
    by simp [search_users, search_users_over, hq], fun u => ?_⟩
  rw [List.mem_filter]
  simp [Bool.or_eq_true, listSub_iff]

/-- Witness for C6: the non-empty-query clause applied at `"bob"`. -/
theorem search_users_spec_witness :
    ("bob" : String) ≠ "" ∧
    (∃ l, search_users "bob" = Except.ok l ∧
      ∀ u, u ∈ l ↔ u ∈ users ∧
        (SubstrOf (lowerStr "bob").data (lowerStr u.name).data ∨
         SubstrOf (lowerStr "bob").data (lowerStr u.email).data)) :=
  ⟨by decide, search_users_spec.2.1 "bob" (by decide)⟩

/-- Counterexample to claim C7 as stated: no user has id `-1`, yet
`get_user_details (-1)` raises `ValueError`, not the claimed `KeyError`
(`NotFound`). -/
theorem get_user_details_notfound_cex :
    users.all (fun u => u.id != -1) = true ∧
    get_user_details (-1) = Except.error (PyError.valueError "Invalid user_id: -1") ∧
    isKeyError (get_user_details (-1)) = false :=
  ⟨by decide, by decide, by decide⟩

/-- Claim C7 (amended): `get_user_details uid` returns the stored
record augmented with `account_status = "active"` and
`created_at = "2024-01-15"` iff a user with that id exists, and raises
`KeyError` (`NotFound`) when no user has that id and the id is
non-negative (negative ids raise `ValueError` instead, see the
counterexample). -/
theorem get_user_details_spec (uid : Int) :
    (∀ u, u ∈ users → u.id = uid → get_user_details uid = Except.ok (augmentUser u)) ∧
    ((∀ u, u ∈ users → u.id ≠ uid) → ∀ d, get_user_details uid ≠ Except.ok d) ∧
    (0 ≤ uid → (∀ u, u ∈ users → u.id ≠ uid) →
      get_user_details uid = Except.error (PyError.keyError (s!"User with id {uid} not found"))) := by
  refine ⟨?_, ?_, ?_⟩
  · intro u hu hid
    fin_cases hu <;> (cases hid; decide)
  · intro h d
    unfold get_user_details get_user_details_over
    by_cases hneg : uid < 0
    · simp [hneg]
    · have hf : users.find? (fun u => u.id == uid) = none :=
        List.find?_eq_none.mpr (fun x hx => by simpa using h x hx)
      simp [hneg, hf]
  · intro hpos h
    have hneg : ¬ uid < 0 := not_lt.mpr hpos
    have hf : users.find? (fun u => u.id == uid) = none :=
      List.find?_eq_none.mpr (fun x hx => by simpa using h x hx)
    unfold get_user_details get_user_details_over
    simp [hneg, hf]

/-- Witness for C7 (amended): Bob's id and a missing id. -/
theorem get_user_details_spec_witness :
    get_user_details 2 = Except.ok
      { id := 2, name := "Bob", email := "bob@example.com",
        account_status := "active", created_at := "2024-01-15" } ∧
    get_user_details 999 = Except.error (PyError.keyError "User with id 999 not found") :=
  ⟨(get_user_details_spec 2).1 { id := 2, name := "Bob", email := "bob@example.com" }
      (by decide) rfl,
   (get_user_details_spec 999).2.2 (by decide) (by decide)⟩

/-- Claim C8: the average product price over the fixed store is
`(999.99 + 29.99 + 79.99) / 3` rounded to two decimals, i.e. `369.99`,
and the `EmptyCollection` error kind (`ValueError`) is raised exactly
when the product collection is empty. -/
theorem average_price_spec :
    calculate_average_product_price =
      Except.ok (pyRound2 ((99999 / 100 + 2999 / 100 + 7999 / 100 : ℚ) / 3)) ∧
    pyRound2 ((99999 / 100 + 2999 / 100 + 7999 / 100 : ℚ) / 3) = 36999 / 100 ∧
    ∀ store : List Product,
      (calculate_average_product_price_over store =
        Except.error (PyError.valueError "No products in store") ↔ store = []) := by
  have hround : pyRound2 ((99999 / 100 + 2999 / 100 + 7999 / 100 : ℚ) / 3) = 36999 / 100 := by
    have h1 : ((99999 / 100 + 2999 / 100 + 7999 / 100 : ℚ) / 3) * 100 = ((36999 : ℤ) : ℚ) := by
      norm_num
    unfold pyRound2 roundHalfEven
    rw [h1, Int.floor_intCast]
    norm_num
  refine ⟨?_, hround, ?_⟩
  · have hsum : ((products.map (fun p => p.price)).sum / (products.length : ℚ)) =
        ((99999 / 100 + 2999 / 100 + 7999 / 100 : ℚ) / 3) := by
      simp [products]
      norm_num
    unfold calculate_average_product_price calculate_average_product_price_over
    rw [if_neg (by simp [products]), hsum]
  · intro store
    cases store with
    | nil => simp [calculate_average_product_price_over]
    | cons p ps => simp [calculate_average_product_price_over]

/-- Witness for C8: the empty-collection clause at the empty store. -/
theorem average_price_spec_witness :
    calculate_average_product_price_over [] =
      Except.error (PyError.valueError "No products in store") :=
  (average_price_spec.2.2 []).mpr rfl

/-- Claim C9: for every product id with no matching product the
parameterized product resource returns (never raises) the
success-shaped payload carrying an `error` message and
`available_ids = [101, 102, 103]`; for a matching id the stored record
is returned. -/
theorem product_by_id_spec :
    (∀ pid : Int, (∀ p, p ∈ products → p.id ≠ pid) →
      get_product_by_id pid =
        ProductLookup.missing (s!"Product {pid} not found") [101, 102, 103]) ∧
    get_product_by_id 999 = ProductLookup.missing "Product 999 not found" [101, 102, 103] ∧
    (∀ pid p, p ∈ products → p.id = pid → get_product_by_id pid = ProductLookup.found p) := by
  refine ⟨?_, rfl, ?_⟩
  · intro pid h
    have hf : products.find? (fun p => p.id == pid) = none :=
      List.find?_eq_none.mpr (fun x hx => by simpa using h x hx)
    unfold get_product_by_id get_product_by_id_over
    rw [hf]
    exact rfl
  · intro pid p hp hid
    fin_cases hp <;> (cases hid; rfl)

/-- Witness for C9: the miss payload at id 999 and the hit at id
101. -/
theorem product_by_id_spec_witness :
    get_product_by_id 999 = ProductLookup.missing "Product 999 not found" [101, 102, 103] ∧
    get_product_by_id 101 = ProductLookup.found
      { id := 101, name := "Laptop", price := 99999 / 100 } :=
  ⟨product_by_id_spec.1 999 (by decide),
   product_by_id_spec.2.2 101 { id := 101, name := "Laptop", price := 99999 / 100 }
     (by unfold products; exact List.mem_cons_self _ _) rfl⟩

/-- Claim C10: for every negative `user_id`, `get_user_details` raises
`ValueError` (`InvalidInput`) independently of the store — i.e. before
any lookup — and never the `KeyError` (`NotFound`) used for missing
non-negative ids. -/
theorem negative_user_id_spec (store : List User) (uid : Int) (h : uid < 0) :
    get_user_details_over store uid =
      Except.error (PyError.valueError (s!"Invalid user_id: {uid}")) ∧
    ∀ m, get_user_details_over store uid ≠ Except.error (PyError.keyError m) := by
  have h1 : get_user_details_over store uid =
      Except.error (PyError.valueError (s!"Invalid user_id: {uid}")) := by
    unfold get_user_details_over
    rw [if_pos h]
  refine ⟨h1, fun m hm => ?_⟩
  rw [h1] at hm
  exact PyError.noConfusion (Except.error.inj hm)

/-- Witness for C10: `user_id = -1` on the fixed store. -/
theorem negative_user_id_spec_witness :
    (-1 : Int) < 0 ∧
    get_user_details_over users (-1) =
      Except.error (PyError.valueError "Invalid user_id: -1") ∧
    get_user_details_over users (-1) ≠
      Except.error (PyError.keyError "User with id -1 not found") :=
  ⟨by decide, (negative_user_id_spec users (-1) (by decide)).1,
   (negative_user_id_spec users (-1) (by decide)).2 "User with id -1 not found"⟩

/-- The code-side dict handling of the `.json` accessor branch agrees
with the spec-side candidate selection and coercion. -/
theorem jsonHandle_eq_specJsonShape (v : Val) : jsonHandle v = specJsonShape v := by
  cases v with
  | vdict fs =>
    simp only [jsonHandle, specJsonShape, jsonDictSelect, specCandidate, specCoerceCandidate]
    cases h1 : dictGet fs "result" with
    | some r => simp only [Option.getD]; cases r <;> rfl
    | none =>
      cases h2 : dictGet fs "text" with
      | some t => simp only [Option.getD]; cases t <;> rfl
      | none => rfl
  | vnone => rfl
  | vbool b => rfl
  | vint i => rfl
  | vfloat q => rfl
  | vstr s => rfl
  | vlist xs => rfl
  | vobj c => rfl

/-- Claim C1: the unwrapper is a total function (it never raises), and
on an envelope matching none of the known shapes — no non-empty
`content` list, or a first item with neither non-null text nor a
`json` accessor — it returns the original envelope unchanged. -/
theorem extract_unknown_shape_spec (c : Option (List (ContentItem Val)))
    (h : c = none ∨ c = some [] ∨
      ∃ item rest, c = some (item :: rest) ∧ item.text = none ∧
        item.json = JsonAttr.absent) :
    extract_tool_result (Val.vobj c) = Val.vobj c := by
  rcases h with rfl | rfl | ⟨item, rest, rfl, ht, hj⟩
  · rfl
  · rfl
  · simp [extract_tool_result, ht, hj]

/-- Witness for C1: an envelope whose only content item has neither
text nor a `json` accessor. -/
theorem extract_unknown_shape_spec_witness :
    extract_tool_result (Val.vobj (some [⟨none, JsonAttr.absent⟩])) =
      Val.vobj (some [⟨none, JsonAttr.absent⟩]) :=
  extract_unknown_shape_spec (some [⟨none, JsonAttr.absent⟩])
    (Or.inr (Or.inr ⟨⟨none, JsonAttr.absent⟩, [], rfl, rfl, rfl⟩))

/-- Claim C2: on an envelope whose first content item has non-null
text, the unwrapper returns the `result` key of a JSON-parsed mapping,
else the parsed JSON value as-is, and on parse failure coerces the raw
text (`float` when it contains a decimal point, else `int`), returning
the raw text unchanged when that coercion also fails; in particular
text `"42"` yields integer 42, `"3.5"` yields float 3.5, and JSON
`\x7b"result": 7\x7d` yields 7. -/
theorem extract_text_spec :
    (∀ (item : ContentItem Val) (rest : List (ContentItem Val)) (s : String),
      item.text = some s →
      ((∀ fs r, jsonLoads s = some (Val.vdict fs) → dictGet fs "result" = some r →
          extract_tool_result (Val.vobj (some (item :: rest))) = r) ∧
       (∀ v, jsonLoads s = some v →
          (∀ fs, v = Val.vdict fs → dictGet fs "result" = none) →
          extract_tool_result (Val.vobj (some (item :: rest))) = v) ∧
       (jsonLoads s = none → s.data.contains '.' = true →
          ∀ q, pyFloatOfString s = some q →
            extract_tool_result (Val.vobj (some (item :: rest))) = Val.vfloat q) ∧
       (jsonLoads s = none → s.data.contains '.' = true → pyFloatOfString s = none →
          extract_tool_result (Val.vobj (some (item :: rest))) = Val.vstr s) ∧
       (jsonLoads s = none → s.data.contains '.' = false →
          ∀ i, pyIntOfString s = some i →
            extract_tool_result (Val.vobj (some (item :: rest))) = Val.vint i) ∧
       (jsonLoads s = none → s.data.contains '.' = false → pyIntOfString s = none →
          extract_tool_result (Val.vobj (some (item :: rest))) = Val.vstr s))) ∧
    extract_tool_result (Val.vobj (some [⟨some "42", JsonAttr.absent⟩])) = Val.vint 42 ∧
    extract_tool_result (Val.vobj (some [⟨some "3.5", JsonAttr.absent⟩])) =
      Val.vfloat (7 / 2) ∧
    extract_tool_result (Val.vobj (some [⟨some "\x7b\"result\": 7\x7d", JsonAttr.absent⟩])) =
      Val.vint 7 := by
  have h35 : extract_tool_result (Val.vobj (some [⟨some "3.5", JsonAttr.absent⟩])) =
      Val.vfloat (mkFloatVal false ['3'] ['5'] 0) := rfl
  have d3 : natOfDigits ['3'] = 3 := rfl
  have d5 : natOfDigits ['5'] = 5 := rfl
  have hval : mkFloatVal false ['3'] ['5'] 0 = 7 / 2 := by
    simp only [mkFloatVal, d3, d5]
    norm_num
  refine ⟨?_, rfl, h35.trans (congrArg Val.vfloat hval), rfl⟩
  intro item rest s ht
  have key : extract_tool_result (Val.vobj (some (item :: rest))) = textExtract s := by
    simp [extract_tool_result, ht]
  refine ⟨?_, ?_, ?_, ?_, ?_, ?_⟩
  · intro fs r hl hg
    rw [key]
    simp [textExtract, hl, hg]
  · intro v hl hnd
    rw [key]
    cases v with
    | vdict fs => simp [textExtract, hl, hnd fs rfl]
    | vnone => simp [textExtract, hl]
    | vbool b => simp [textExtract, hl]
    | vint i => simp [textExtract, hl]
    | vfloat q => simp [textExtract, hl]
    | vstr s2 => simp [textExtract, hl]
    | vlist xs => simp [textExtract, hl]
    | vobj c2 => simp [textExtract, hl]
  · intro hl hc q hq
    rw [key]
    simp only [textExtract, hl]
    unfold coerceNum
    rw [if_pos hc, hq]
  · intro hl hc hq
    rw [key]
    simp only [textExtract, hl]
    unfold coerceNum
    rw [if_pos hc, hq]
  · intro hl hc i hi
    rw [key]
    simp only [textExtract, hl]
    unfold coerceNum
    rw [if_neg (by rw [hc]; exact Bool.false_ne_true), hi]
  · intro hl hc hi
    rw [key]
    simp only [textExtract, hl]
    unfold coerceNum
    rw [if_neg (by rw [hc]; exact Bool.false_ne_true), hi]

/-- Witness for C2: the text branch applied at text `"42"`, whose JSON
parse yields the non-mapping value 42. -/
theorem extract_text_spec_witness :
    extract_tool_result (Val.vobj (some [⟨some "42", JsonAttr.absent⟩])) = Val.vint 42 :=
  (extract_text_spec.1 ⟨some "42", JsonAttr.absent⟩ [] "42" rfl).2.1 (Val.vint 42) rfl
    (fun _ h => Val.noConfusion h)

/-- Claim C3: on an envelope whose first content item has no non-null
text but exposes a `json` accessor, the unwrapper obtains the JSON
value — calling the accessor and parsing its output when callable
(falling back to the raw output string on parse failure), else the
pre-computed value — and reduces a mapping to its candidate
(`result`, else `text`, else the mapping itself), numerically coercing
a string candidate and returning any other candidate unchanged. -/
theorem extract_json_accessor_spec :
    (∀ (item : ContentItem Val) (rest : List (ContentItem Val)),
      item.text = none →
      ((∀ out, item.json = JsonAttr.jcallable out →
          extract_tool_result (Val.vobj (some (item :: rest))) =
            (match jsonLoads out with
             | some v => specJsonShape v
             | none => Val.vstr out)) ∧
       (∀ v, item.json = JsonAttr.jvalue v →
          extract_tool_result (Val.vobj (some (item :: rest))) = specJsonShape v))) ∧
    extract_tool_result (Val.vobj (some [⟨none,
      JsonAttr.jvalue (Val.vdict [("result", Val.vstr "42")])⟩])) = Val.vint 42 := by
  refine ⟨?_, rfl⟩
  intro item rest ht
  constructor
  · intro out hj
    cases hl : jsonLoads out with
    | some parsed =>
      have h1 : extract_tool_result (Val.vobj (some (item :: rest))) =
          jsonHandle parsed := by
        simp [extract_tool_result, ht, hj, hl]
      rw [h1]
      exact jsonHandle_eq_specJsonShape parsed
    | none => simp [extract_tool_result, ht, hj, hl]
  · intro v hj
    have h1 : extract_tool_result (Val.vobj (some (item :: rest))) = jsonHandle v := by
      simp [extract_tool_result, ht, hj]
    rw [h1]
    exact jsonHandle_eq_specJsonShape v

/-- Witness for C3: a pre-computed `json` value that is a mapping with
a numeric-string `result` key. -/
theorem extract_json_accessor_spec_witness :
    extract_tool_result (Val.vobj (some [⟨none,
      JsonAttr.jvalue (Val.vdict [("result", Val.vstr "42")])⟩])) =
      specJsonShape (Val.vdict [("result", Val.vstr "42")]) ∧
    specJsonShape (Val.vdict [("result", Val.vstr "42")]) = Val.vint 42 :=
  ⟨(extract_json_accessor_spec.1 ⟨none,
      JsonAttr.jvalue (Val.vdict [("result", Val.vstr "42")])⟩ [] rfl).2
      (Val.vdict [("result", Val.vstr "42")]) rfl,
   rfl⟩

/-- Counterexample to claim C4 as stated: a pre-computed `json` value
holding a nested envelope makes the unwrapper return that envelope,
which a second application unwraps further (to the integer 42), so
`extract_tool_result` is not idempotent on every envelope. -/
theorem extract_not_idempotent_cex :
    extract_tool_result (extract_tool_result (Val.vobj (some [⟨none,
      JsonAttr.jvalue (Val.vobj (some [⟨some "42", JsonAttr.absent⟩]))⟩]))) ≠
    extract_tool_result (Val.vobj (some [⟨none,
      JsonAttr.jvalue (Val.vobj (some [⟨some "42", JsonAttr.absent⟩]))⟩])) := by
  intro h
  have h1 : extract_tool_result (Val.vobj (some [⟨none,
      JsonAttr.jvalue (Val.vobj (some [⟨some "42", JsonAttr.absent⟩]))⟩])) =
      Val.vobj (some [⟨some "42", JsonAttr.absent⟩]) := rfl
  have h2 : extract_tool_result (Val.vobj (some [⟨some "42", JsonAttr.absent⟩])) =
      Val.vint 42 := rfl
  rw [h1, h2] at h
  exact Val.noConfusion h

/-- Claim C4 (amended): `extract_tool_result` is idempotent on every
envelope whose extraction result is the original envelope itself or is
not an envelope-shaped object — pre-computed `json` values holding a
nested envelope are the only way a second application can differ (see
the counterexample). -/
theorem extract_idempotent_spec (e : Val)
    (h : extract_tool_result e = e ∨ ∀ c, extract_tool_result e ≠ Val.vobj c) :
    extract_tool_result (extract_tool_result e) = extract_tool_result e := by
  rcases h with h | h
  · exact congrArg extract_tool_result h
  · exact extract_eq_self_of_ne_vobj _ h

/-- Witness for C4 (amended): the text envelope `"42"`, whose
extraction yields a non-envelope value. -/
theorem extract_idempotent_spec_witness :
    extract_tool_result (extract_tool_result (Val.vobj (some [⟨some "42",
      JsonAttr.absent⟩]))) =
      extract_tool_result (Val.vobj (some [⟨some "42", JsonAttr.absent⟩])) :=
  extract_idempotent_spec (Val.vobj (some [⟨some "42", JsonAttr.absent⟩]))
    (Or.inr (fun c h => by
      rw [show extract_tool_result (Val.vobj (some [⟨some "42", JsonAttr.absent⟩])) =
          Val.vint 42 from rfl] at h
      exact Val.noConfusion h))

end Mcp
